import Mathlib

/-!
Verification of the Hermite-function evaluation core of `robust_hermite_ft`.

The development shallowly embeds:

* the input validation layer of
  `src/robust_hermite_ft/hermite_functions/_validate.py` (fully present in
  the repository), over an explicit model of the Python/NumPy values it
  inspects (real and complex scalars, lists, tuples and NumPy arrays with a
  dtype and a number of dimensions);
* the Hermite-function recurrence kernel, the scaled (mantissa, exponent)
  kernel and the public evaluator surface.  The evaluator interface module
  `_func_interface.py` and the compiled kernels are not shipped under
  `src/`, so those definitions are modelled from the specification and are
  marked as such in their doc comments.

Python exceptions are modelled by `Except PyErr`; NumPy float values by `ℚ`
(the validation layer never computes with them) and the real-valued
Hermite-function computation by `ℝ`.
-/

namespace RobustHermiteFT

/-- The parameter a raised Python exception complains about. -/
inductive Param
  | x
  | n
  | alpha
  | center
deriving DecidableEq, Repr

/-- A Python exception as raised by the validation layer: `TypeError` or
`ValueError`, tagged with the offending parameter. -/
inductive PyErr
  | typeError (p : Param)
  | valueError (p : Param)
deriving DecidableEq, Repr

/-- The real NumPy dtypes relevant to `_validate.py`: `float32`, `float64`
and the integer dtype produced by integer inputs. -/
inductive RDty
  | f32
  | f64
  | i64
deriving DecidableEq, Repr

/-- A NumPy array: either a real-valued array with a real dtype or a
complex-valued one.  `ndim` is the number of dimensions and `vs` the
flattened data (real values as `ℚ`, complex ones as pairs `(re, im)`). -/
inductive NDArr
  | realArr (dty : RDty) (ndim : ℕ) (vs : List ℚ)
  | cplxArr (ndim : ℕ) (vs : List (ℚ × ℚ))
deriving DecidableEq, Repr

/-- The Python values a caller can pass for the coordinate argument `x`:
real and complex scalars, lists/tuples of reals or of complex numbers, and
NumPy arrays. -/
inductive XInput
  | pyFloat (v : ℚ)
  | pyInt (v : ℤ)
  | pyComplex (re im : ℚ)
  | realList (vs : List ℚ)
  | cplxList (vs : List (ℚ × ℚ))
  | array (a : NDArr)
deriving DecidableEq, Repr

/-- The Python values a caller can pass for the order `n`. -/
inductive NInput
  | int (v : ℤ)
  | npint (v : ℤ)
  | pyFloat (v : ℚ)
  | pyComplex (re im : ℚ)
deriving DecidableEq, Repr

/-- The Python values a caller can pass for the scalar parameters `alpha`
and `x_center`. -/
inductive AInput
  | float (v : ℚ)
  | int (v : ℤ)
  | npfloat (v : ℚ)
  | npint (v : ℤ)
  | pyComplex (re im : ℚ)
deriving DecidableEq, Repr

/-- Number of dimensions of an array. -/
def arrNdim : NDArr → ℕ
  | .realArr _ nd _ => nd
  | .cplxArr nd _ => nd

/-- Number of elements of an array (`arr.size`). -/
def arrSize : NDArr → ℕ
  | .realArr _ _ vs => vs.length
  | .cplxArr _ vs => vs.length

/-- `np.isreal(arr).all()`: every element has zero imaginary part.  Arrays
of real dtype are always real-valued. -/
def arrIsReal : NDArr → Bool
  | .realArr _ _ _ => true
  | .cplxArr _ vs => vs.all (fun p => p.2 = 0)

/-- Whether the array already has the required dtype `np.float64`. -/
def arrIsF64 : NDArr → Bool
  | .realArr .f64 _ _ => true
  | _ => false

/-- `arr.astype(np.float64)` for a real-valued array: keeps the shape and
the (real parts of the) data, always allocating a fresh array. -/
def astypeF64 : NDArr → NDArr
  | .realArr _ nd vs => .realArr .f64 nd vs
  | .cplxArr nd vs => .realArr .f64 nd (vs.map Prod.fst)

/-- `np.atleast_1d(x)` together with the aliasing fact the embedding has to
track: the second component records whether the resulting array shares
memory with the caller's input.  Scalars, lists and tuples are materialised
into fresh arrays (no sharing); an array input of dimension `≥ 1` is
returned as the very same object, and a 0-dimensional array is reshaped to
shape `(1,)`, which in NumPy produces a view that shares the input's
memory — in both array cases memory is shared. -/
def atleast1dArr : XInput → NDArr × Bool
  | .pyFloat v => (.realArr .f64 1 [v], false)
  | .pyInt v => (.realArr .i64 1 [(v : ℚ)], false)
  | .pyComplex re im => (.cplxArr 1 [(re, im)], false)
  | .realList vs => (.realArr .f64 1 vs, false)
  | .cplxList vs => (.cplxArr 1 vs, false)
  | .array a =>
      match a with
      | .realArr dty nd vs => (.realArr dty (max 1 nd) vs, true)
      | .cplxArr nd vs => (.cplxArr (max 1 nd) vs, true)

/-- The validated coordinate data: a one-dimensional `float64` array,
together with the fact whether it still shares memory with the caller's
input (`linked`). -/
structure ValidatedX where
  vs : List ℚ
  linked : Bool
deriving DecidableEq, Repr

/-- Real data of a real-valued array (after conversion to `float64` the
array is always of this form). -/
def arrRealData : NDArr → List ℚ
  | .realArr _ _ vs => vs
  | .cplxArr _ vs => vs.map Prod.fst

/-- Embedding of `get_validated_x_values` of `_validate.py`: `np.atleast_1d`
first, then the `np.isreal(...).all()` check (`TypeError` on failure), then
the dtype conversion to `float64` (a fresh copy when the dtype differs),
then the dimension check and finally the size check (`ValueError` each). -/
def getValidatedXValues (x : XInput) : Except PyErr ValidatedX :=
  let p := atleast1dArr x
  if arrIsReal p.1 = false then .error (.typeError .x)
  else
    let q : NDArr × Bool := if arrIsF64 p.1 = true then p else (astypeF64 p.1, false)
    if arrNdim q.1 ≠ 1 then .error (.valueError .x)
    else if arrSize q.1 < 1 then .error (.valueError .x)
    else .ok ⟨arrRealData q.1, q.2⟩

/-- Embedding of `get_validated_order` of `_validate.py`: NumPy integers are
converted to Python integers, non-integers raise a `TypeError`, negative
orders a `ValueError`. -/
def getValidatedOrder : NInput → Except PyErr ℤ
  | .int v => if v < 0 then .error (.valueError .n) else .ok v
  | .npint v => if v < 0 then .error (.valueError .n) else .ok v
  | .pyFloat _ => .error (.typeError .n)
  | .pyComplex _ _ => .error (.typeError .n)

/-- Embedding of `get_validated_alpha` of `_validate.py`: integers and NumPy
scalars are converted to Python floats, non-real inputs raise a
`TypeError`, non-positive values a `ValueError`. -/
def getValidatedAlpha : AInput → Except PyErr ℚ
  | .float v => if v ≤ 0 then .error (.valueError .alpha) else .ok v
  | .int v => if (v : ℚ) ≤ 0 then .error (.valueError .alpha) else .ok (v : ℚ)
  | .npfloat v => if v ≤ 0 then .error (.valueError .alpha) else .ok v
  | .npint v => if (v : ℚ) ≤ 0 then .error (.valueError .alpha) else .ok (v : ℚ)
  | .pyComplex _ _ => .error (.typeError .alpha)

/-- Embedding of `get_validated_offset_along_axis` of `_validate.py`:
`None` is accepted and validated to the float `0.0`; real scalars are
converted to floats; anything else raises a `TypeError`. -/
def getValidatedOffsetAlongAxis : Option AInput → Except PyErr ℚ
  | none => .ok 0
  | some (.float v) => .ok v
  | some (.int v) => .ok (v : ℚ)
  | some (.npfloat v) => .ok v
  | some (.npint v) => .ok (v : ℚ)
  | some (.pyComplex _ _) => .error (.typeError .center)

/-- Embedding of `get_validated_hermite_function_input` of `_validate.py`:
the four validators run in order (`x`, then `n`, then `alpha`, then
`x_center`, matching Python's left-to-right tuple evaluation) and the first
failure is propagated. -/
def getValidatedHermiteFunctionInput (x : XInput) (n : NInput) (alpha : AInput)
    (xCenter : Option AInput) : Except PyErr (ValidatedX × ℤ × ℚ × ℚ) :=
  match getValidatedXValues x with
  | .error e => .error e
  | .ok xv =>
    match getValidatedOrder n with
    | .error e => .error e
    | .ok nv =>
      match getValidatedAlpha alpha with
      | .error e => .error e
      | .ok av =>
        match getValidatedOffsetAlongAxis xCenter with
        | .error e => .error e
        | .ok cv => .ok (xv, nv, av, cv)

/-- Modelled from the spec: the mathematical basis of the recurrence kernel
(spec §4.1), whose compiled implementation is not under `src/`.  The order-0
Hermite function `psi_0(x) = pi^(-1/4) * exp(-x^2/2)`. -/
noncomputable def psiZero (x : ℝ) : ℝ :=
  Real.pi ^ (-(1 / 4 : ℝ)) * Real.exp (-(x ^ 2) / 2)

/-- Modelled from the spec: the three-term recurrence of spec §4.1 defining
the physicists' Hermite functions,
`psi_k(x) = sqrt(2/k) x psi_(k-1)(x) - sqrt((k-1)/k) psi_(k-2)(x)`
with the two base cases `psi_0` and `psi_1(x) = sqrt(2) x psi_0(x)`.  This
is the exact-real reference semantics of the kernel. -/
noncomputable def psi : ℕ → ℝ → ℝ
  | 0, x => psiZero x
  | 1, x => Real.sqrt 2 * x * psiZero x
  | k + 2, x =>
      Real.sqrt (2 / ((k : ℝ) + 2)) * x * psi (k + 1) x
        - Real.sqrt (((k : ℝ) + 1) / ((k : ℝ) + 2)) * psi k x

/-- The per-coordinate state of the scaled recurrence kernel: the mantissas
of the two leading columns together with their shared power-of-two
exponent, so that column `k` has true value `m1 * 2 ^ e` and column `k - 1`
has true value `m2 * 2 ^ e`. -/
structure ScaledPair where
  m1 : ℝ
  m2 : ℝ
  e : ℤ

/-- Modelled from the spec: the rescaling step of the scaled recurrence
kernel (spec §4.1 and §9).  Whenever the leading mantissa leaves the safe
magnitude band `[2^-256, 2^256]`, a power-of-two factor is extracted from
both retained mantissas into the shared exponent; the represented true
values are unchanged. -/
noncomputable def bandRescale (m1 m2 : ℝ) (e : ℤ) : ScaledPair :=
  if (2 : ℝ) ^ (256 : ℕ) ≤ |m1| then
    ⟨m1 * (2 : ℝ) ^ (-(512 : ℤ)), m2 * (2 : ℝ) ^ (-(512 : ℤ)), e + 512⟩
  else if |m1| ≤ (2 : ℝ) ^ (-(256 : ℤ)) then
    ⟨m1 * (2 : ℝ) ^ (512 : ℤ), m2 * (2 : ℝ) ^ (512 : ℤ), e - 512⟩
  else ⟨m1, m2, e⟩

/-- Modelled from the spec: the scaled recurrence kernel of spec §4.1,
whose compiled implementation is not under `src/`.  `scaledState x k` is
the (mantissa, mantissa, exponent) state after the recurrence has produced
column `k` at the (already dilated and centered) coordinate `x`. -/
noncomputable def scaledState (x : ℝ) : ℕ → ScaledPair
  | 0 => ⟨psiZero x, 0, 0⟩
  | 1 => bandRescale (Real.sqrt 2 * x * psiZero x) (psiZero x) 0
  | k + 2 =>
      let s := scaledState x (k + 1)
      bandRescale
        (Real.sqrt (2 / ((k : ℝ) + 2)) * x * s.m1
          - Real.sqrt (((k : ℝ) + 1) / ((k : ℝ) + 2)) * s.m2)
        s.m1 s.e

/-- The value the scaled kernel emits for column `k`: the leading mantissa
recombined with the exponent current at that column (spec §4.1). -/
noncomputable def scaledEmit (x : ℝ) (k : ℕ) : ℝ :=
  (scaledState x k).m1 * (2 : ℝ) ^ (scaledState x k).e

/-- One row of the basis matrix as produced through the scaled kernel: the
dilation/centering transform `x -> alpha * (x - x_center)` is applied, the
kernel emits the columns `0 .. n`, and each value is normalised by
`sqrt(alpha)` (spec §4.2). -/
noncomputable def hermiteBasisRow (n : ℕ) (alpha xCenter : ℝ) (xv : ℝ) : List ℝ :=
  (List.range (n + 1)).map
    (fun k => Real.sqrt alpha * scaledEmit (alpha * (xv - xCenter)) k)

/-- One row of the basis matrix as produced by the reference (slow) path:
the same transform and normalisation, but the direct recurrence `psi`. -/
noncomputable def slowBasisRow (n : ℕ) (alpha xCenter : ℝ) (xv : ℝ) : List ℝ :=
  (List.range (n + 1)).map
    (fun k => Real.sqrt alpha * psi k (alpha * (xv - xCenter)))

/-- Contiguous chunking of a coordinate array into blocks of `sz` elements
(the last block may be shorter); `fuel` bounds the number of blocks. -/
def chunkGo (sz : ℕ) : ℕ → List ℝ → List (List ℝ)
  | _, [] => []
  | 0, xs => [xs]
  | fuel + 1, xs => xs.take sz :: chunkGo sz fuel (xs.drop sz)

/-- The block size used to spread `len` coordinates over `w` workers. -/
def workerBlockSize (len w : ℕ) : ℕ :=
  max 1 ((len + w - 1) / max 1 w)

/-- Modelled from the spec: the parallel full-basis evaluation of spec §4.2
and §5, whose compiled implementation is not under `src/`.  The coordinate
array is partitioned into contiguous blocks, one per worker; each block's
rows are computed independently by the scaled kernel, and the block results
are concatenated back in the original coordinate order. -/
noncomputable def hermiteBasisPar (xs : List ℝ) (n : ℕ) (alpha xCenter : ℝ)
    (w : ℕ) : List (List ℝ) :=
  ((chunkGo (workerBlockSize xs.length w) xs.length xs).map
    (fun b => b.map (hermiteBasisRow n alpha xCenter))).flatten

/-- Modelled from the spec: the single-order evaluation path of spec §4.2
(validated coordinates in, one value per coordinate out), running the
scaled kernel to exactly order `n`. -/
noncomputable def evalSingleCore (xs : List ℚ) (n : ℕ) (alpha xCenter : ℚ) : List ℝ :=
  xs.map (fun xv : ℚ =>
    Real.sqrt (alpha : ℝ) * scaledEmit ((alpha : ℝ) * ((xv : ℝ) - (xCenter : ℝ))) n)

/-- Modelled from the spec: the public `single_hermite_function` (spec §6),
whose interface module is not under `src/`: validate all inputs first via
the embedded `_validate.py` functions, then run the single-order path. -/
noncomputable def single_hermite_function (x : XInput) (n : NInput) (alpha : AInput)
    (xCenter : Option AInput) : Except PyErr (List ℝ) :=
  match getValidatedHermiteFunctionInput x n alpha xCenter with
  | .error e => .error e
  | .ok (xv, nv, av, cv) => .ok (evalSingleCore xv.vs nv.toNat av cv)

/-- Modelled from the spec: the public `hermite_function_basis` (spec §6),
whose interface module is not under `src/`: validate all inputs first, then
run the block-parallel full-basis evaluation with `workers` workers. -/
noncomputable def hermite_function_basis (x : XInput) (n : NInput) (alpha : AInput)
    (xCenter : Option AInput) (workers : ℕ) : Except PyErr (List (List ℝ)) :=
  match getValidatedHermiteFunctionInput x n alpha xCenter with
  | .error e => .error e
  | .ok (xv, nv, av, cv) =>
      .ok (hermiteBasisPar (xv.vs.map (fun q : ℚ => (q : ℝ))) nv.toNat (av : ℝ) (cv : ℝ) workers)

/-- Modelled from the spec: the public `slow_hermite_function_basis`
(spec §6), whose implementation is not under `src/`: the same validation
and contract as `hermite_function_basis`, evaluated row by row with the
direct recurrence.  The `jit` flag only selects a just-in-time compiled
build of the very same computation (spec §6, §9), so it does not enter the
mathematical semantics. -/
noncomputable def slow_hermite_function_basis (x : XInput) (n : NInput) (alpha : AInput)
    (xCenter : Option AInput) (jit : Bool) : Except PyErr (List (List ℝ)) :=
  match getValidatedHermiteFunctionInput x n alpha xCenter with
  | .error e => .error e
  | .ok (xv, nv, av, cv) =>
      .ok ((xv.vs.map (fun q : ℚ => (q : ℝ))).map (slowBasisRow nv.toNat (av : ℝ) (cv : ℝ)))

/-- The result of any of the three public evaluators: a vector of values or
a basis matrix. -/
inductive HFOut
  | vec (vs : List ℝ)
  | mat (m : List (List ℝ))

/-- Selector for the three public evaluators of spec §6 (with their extra
argument where they have one). -/
inductive EvalKind
  | single
  | basis (workers : ℕ)
  | slow (jit : Bool)

/-- Run the selected public evaluator on a common input tuple. -/
noncomputable def runEvaluator : EvalKind → XInput → NInput → AInput → Option AInput →
    Except PyErr HFOut
  | .single, x, n, a, c =>
      match single_hermite_function x n a c with
      | .error e => .error e
      | .ok vs => .ok (.vec vs)
  | .basis w, x, n, a, c =>
      match hermite_function_basis x n a c w with
      | .error e => .error e
      | .ok m => .ok (.mat m)
  | .slow j, x, n, a, c =>
      match slow_hermite_function_basis x n a c j with
      | .error e => .error e
      | .ok m => .ok (.mat m)

/-- A store of caller-visible coordinate arrays: a mutable heap in which an
array object is a cell addressed by its index.  Used to state that the
evaluators never write to caller storage. -/
abbrev Store := List (List ℚ)

/-- Read the contents of the array object at reference `r`. -/
def storeGet (st : Store) (r : ℕ) : List ℚ :=
  st.getD r []

/-- Allocate a fresh array object holding `vs` (appended at the end of the
store, so all existing references keep their cells). -/
def storeAlloc (st : Store) (vs : List ℚ) : Store :=
  st ++ [vs]

/-- Modelled from the spec: the full-basis evaluator seen as a computation
on the heap of caller-visible arrays (the interface module is not under
`src/`).  Per spec §4.2, the dilation/centering transform
`x -> alpha * (x - x_center)` is applied to a freshly allocated internal
copy of the caller's array; the caller's cell is only ever read. -/
noncomputable def hermiteBasisStateful (st : Store) (r : ℕ) (n : ℕ)
    (alpha xCenter : ℚ) : Store × List (List ℝ) :=
  let xs := storeGet st r
  let st1 := storeAlloc st (xs.map (fun q => alpha * (q - xCenter)))
  (st1, (storeGet st1 st.length).map (fun q : ℚ =>
    (List.range (n + 1)).map (fun k => Real.sqrt (alpha : ℝ) * scaledEmit (q : ℝ) k)))

/-- The coordinate input is real-valued (`np.isreal(np.atleast_1d(x)).all()`
in the source). -/
def xIsRealLike (x : XInput) : Bool :=
  arrIsReal (atleast1dArr x).1

/-- The coordinate input has a bad shape: after `np.atleast_1d` it is not
one-dimensional, or it is empty. -/
def xBadShape (x : XInput) : Bool :=
  decide (arrNdim (atleast1dArr x).1 ≠ 1) || decide (arrSize (atleast1dArr x).1 = 0)

/-- The order input is an integer with a negative value. -/
def nIsNegative : NInput → Bool
  | .int v => decide (v < 0)
  | .npint v => decide (v < 0)
  | .pyFloat _ => false
  | .pyComplex _ _ => false

/-- The dilation input is a real scalar with a non-positive value. -/
def alphaNonPos : AInput → Bool
  | .float v => decide (v ≤ 0)
  | .int v => decide (v ≤ 0)
  | .npfloat v => decide (v ≤ 0)
  | .npint v => decide (v ≤ 0)
  | .pyComplex _ _ => false

/-- Whether a validation step succeeded. -/
def isOkB {α : Type} : Except PyErr α → Bool
  | .ok _ => true
  | .error _ => false

/-- The center input is a real scalar. -/
def centerIsReal : AInput → Bool
  | .pyComplex _ _ => false
  | _ => true

/-- The coordinate input is a one-dimensional `float64` NumPy array (the
condition named by the data-linking claim). -/
def isOneDimF64Arr : XInput → Bool
  | .array (.realArr .f64 1 _) => true
  | _ => false

/-- The coordinate input is a `float64` NumPy array of dimension at most
one (the condition under which validation actually shares memory). -/
def isLowDimF64Arr : XInput → Bool
  | .array (.realArr .f64 nd _) => decide (nd ≤ 1)
  | _ => false

theorem mul_zpow_shift_up (m : ℝ) (e d : ℤ) :
    m * (2 : ℝ) ^ (-d) * (2 : ℝ) ^ (e + d) = m * (2 : ℝ) ^ e := by
  rw [zpow_add₀ (two_ne_zero (α := ℝ)), zpow_neg]
  field_simp
  ring

theorem mul_zpow_shift_down (m : ℝ) (e d : ℤ) :
    m * (2 : ℝ) ^ d * (2 : ℝ) ^ (e - d) = m * (2 : ℝ) ^ e := by
  rw [zpow_sub₀ (two_ne_zero (α := ℝ))]
  field_simp
  ring

/-- The extracted power-of-two factors cancel against the exponent change:
`bandRescale` preserves both represented true values. -/
theorem bandRescale_spec (m1 m2 : ℝ) (e : ℤ) :
    (bandRescale m1 m2 e).m1 * (2 : ℝ) ^ (bandRescale m1 m2 e).e = m1 * (2 : ℝ) ^ e ∧
    (bandRescale m1 m2 e).m2 * (2 : ℝ) ^ (bandRescale m1 m2 e).e = m2 * (2 : ℝ) ^ e := by
  unfold bandRescale
  split_ifs
  · exact ⟨mul_zpow_shift_up m1 e 512, mul_zpow_shift_up m2 e 512⟩
  · exact ⟨mul_zpow_shift_down m1 e 512, mul_zpow_shift_down m2 e 512⟩
  · exact ⟨rfl, rfl⟩

/-- Correctness of the scaled kernel state: at every column the leading
mantissa recombines to the true Hermite-function value, and the trailing
one to the value of the previous column. -/
theorem scaledState_spec (x : ℝ) :
    ∀ k, (scaledState x k).m1 * (2 : ℝ) ^ (scaledState x k).e = psi k x ∧
      (scaledState x k).m2 * (2 : ℝ) ^ (scaledState x k).e =
        (if k = 0 then 0 else psi (k - 1) x) := by
  intro k
  induction k with
  | zero => simp [scaledState, psi]
  | succ k ih =>
    cases k with
    | zero =>
      have h := bandRescale_spec (Real.sqrt 2 * x * psiZero x) (psiZero x) 0
      simpa [scaledState, psi] using h
    | succ j =>
      obtain ⟨ih1, ih2⟩ := ih
      have hne : j + 1 ≠ 0 := Nat.succ_ne_zero j
      rw [if_neg hne] at ih2
      have h := bandRescale_spec
        (Real.sqrt (2 / ((j : ℝ) + 2)) * x * (scaledState x (j + 1)).m1
          - Real.sqrt (((j : ℝ) + 1) / ((j : ℝ) + 2)) * (scaledState x (j + 1)).m2)
        (scaledState x (j + 1)).m1 (scaledState x (j + 1)).e
      constructor
      · show (scaledState x (j + 2)).m1 * (2 : ℝ) ^ (scaledState x (j + 2)).e = psi (j + 2) x
        rw [show scaledState x (j + 2) = bandRescale
            (Real.sqrt (2 / ((j : ℝ) + 2)) * x * (scaledState x (j + 1)).m1
              - Real.sqrt (((j : ℝ) + 1) / ((j : ℝ) + 2)) * (scaledState x (j + 1)).m2)
            (scaledState x (j + 1)).m1 (scaledState x (j + 1)).e from rfl]
        rw [h.1]
        show _ = psi (j + 2) x
        rw [show psi (j + 2) x =
            Real.sqrt (2 / ((j : ℝ) + 2)) * x * psi (j + 1) x
              - Real.sqrt (((j : ℝ) + 1) / ((j : ℝ) + 2)) * psi j x from rfl]
        rw [← ih1, ← show (scaledState x (j + 1)).m2 * (2 : ℝ) ^ (scaledState x (j + 1)).e
            = psi j x by simpa using ih2]
        ring
      · show (scaledState x (j + 2)).m2 * (2 : ℝ) ^ (scaledState x (j + 2)).e =
          if j + 2 = 0 then 0 else psi (j + 2 - 1) x
        rw [if_neg (Nat.succ_ne_zero _)]
        rw [show scaledState x (j + 2) = bandRescale
            (Real.sqrt (2 / ((j : ℝ) + 2)) * x * (scaledState x (j + 1)).m1
              - Real.sqrt (((j : ℝ) + 1) / ((j : ℝ) + 2)) * (scaledState x (j + 1)).m2)
            (scaledState x (j + 1)).m1 (scaledState x (j + 1)).e from rfl]
        rw [h.2, ih1]
        rfl

/-- The scaled kernel emits exactly the Hermite-function values: the
mantissa/exponent representation is a pure refinement of the direct
recurrence. -/
theorem scaledEmit_eq_psi (x : ℝ) (k : ℕ) : scaledEmit x k = psi k x :=
  (scaledState_spec x k).1

/-- Joining the contiguous chunks restores the coordinate array, for every
block size and every fuel. -/
theorem chunkGo_join (sz : ℕ) : ∀ (fuel : ℕ) (xs : List ℝ),
    (chunkGo sz fuel xs).flatten = xs := by
  intro fuel
  induction fuel with
  | zero =>
    intro xs
    cases xs <;> simp [chunkGo]
  | succ f ih =>
    intro xs
    cases xs with
    | nil => simp [chunkGo]
    | cons y ys =>
      rw [show chunkGo sz (f + 1) (y :: ys) =
        (y :: ys).take sz :: chunkGo sz f ((y :: ys).drop sz) from rfl]
      rw [List.flatten_cons, ih, List.take_append_drop]

/-- Mapping row evaluation over blocks and joining equals mapping it over
the joined list. -/
theorem join_map_map (g : ℝ → List ℝ) : ∀ (cs : List (List ℝ)),
    (cs.map (fun b => b.map g)).flatten = cs.flatten.map g := by
  intro cs
  induction cs with
  | nil => simp
  | cons b bs ih => simp only [List.map_cons, List.flatten_cons, List.map_append, ih]

/-- For every worker count, the block-parallel basis evaluation is just the
row-by-row evaluation of the whole coordinate array, in order. -/
theorem hermiteBasisPar_eq_map (xs : List ℝ) (n : ℕ) (alpha xCenter : ℝ) (w : ℕ) :
    hermiteBasisPar xs n alpha xCenter w = xs.map (hermiteBasisRow n alpha xCenter) := by
  unfold hermiteBasisPar
  rw [join_map_map, chunkGo_join]

/-- The scaled-kernel row and the direct-recurrence row agree. -/
theorem hermiteBasisRow_eq_slow (n : ℕ) (alpha xCenter xv : ℝ) :
    hermiteBasisRow n alpha xCenter xv = slowBasisRow n alpha xCenter xv := by
  unfold hermiteBasisRow slowBasisRow
  exact List.map_congr_left (fun k _ => by rw [scaledEmit_eq_psi])

theorem arrNdim_astype (a : NDArr) : arrNdim (astypeF64 a) = arrNdim a := by
  cases a <;> rfl

theorem arrSize_astype (a : NDArr) : arrSize (astypeF64 a) = arrSize a := by
  cases a <;> simp [astypeF64, arrSize]

/-- A non-real coordinate input makes `get_validated_x_values` raise the
`TypeError` for `x`. -/
theorem getValidatedXValues_typeError (x : XInput) (h : xIsRealLike x = false) :
    getValidatedXValues x = .error (.typeError .x) := by
  have h' : arrIsReal (atleast1dArr x).1 = false := h
  simp [getValidatedXValues, h']

/-- A real-valued coordinate input that is not one-dimensional or is empty
makes `get_validated_x_values` raise the `ValueError` for `x`. -/
theorem getValidatedXValues_shapeError (x : XInput) (h1 : xIsRealLike x = true)
    (h2 : xBadShape x = true) : getValidatedXValues x = .error (.valueError .x) := by
  have h1' : arrIsReal (atleast1dArr x).1 = true := h1
  have h2' : arrNdim (atleast1dArr x).1 ≠ 1 ∨ arrSize (atleast1dArr x).1 = 0 := by
    simpa [xBadShape] using h2
  simp only [getValidatedXValues, h1', Bool.true_eq_false, if_false]
  by_cases hf : arrIsF64 (atleast1dArr x).1 = true <;>
    simp only [hf, Bool.false_eq_true, if_true, if_false] <;>
    split_ifs with hA hB <;>
    first
      | rfl
      | (exfalso
         rcases h2' with h | h <;>
           simp_all [arrNdim_astype, arrSize_astype])

/-- A negative integer order makes `get_validated_order` raise the
`ValueError` for `n`. -/
theorem getValidatedOrder_valueError (n : NInput) (h : nIsNegative n = true) :
    getValidatedOrder n = .error (.valueError .n) := by
  cases n <;> simp_all [nIsNegative, getValidatedOrder]

/-- A non-positive real dilation makes `get_validated_alpha` raise the
`ValueError` for `alpha`. -/
theorem getValidatedAlpha_valueError (a : AInput) (h : alphaNonPos a = true) :
    getValidatedAlpha a = .error (.valueError .alpha) := by
  cases a <;> simp_all [alphaNonPos, getValidatedAlpha]

/-- An `x`-validation failure is the result of the whole validation. -/
theorem validated_error_of_x (x : XInput) (n : NInput) (a : AInput)
    (c : Option AInput) (e : PyErr) (h : getValidatedXValues x = .error e) :
    getValidatedHermiteFunctionInput x n a c = .error e := by
  simp [getValidatedHermiteFunctionInput, h]

/-- An `n`-validation failure after a successful `x` validation is the
result of the whole validation. -/
theorem validated_error_of_n (x : XInput) (n : NInput) (a : AInput)
    (c : Option AInput) (e : PyErr) (hx : isOkB (getValidatedXValues x) = true)
    (h : getValidatedOrder n = .error e) :
    getValidatedHermiteFunctionInput x n a c = .error e := by
  rcases hxv : getValidatedXValues x with e' | xv
  · simp [isOkB, hxv] at hx
  · simp [getValidatedHermiteFunctionInput, hxv, h]

/-- An `alpha`-validation failure after successful `x` and `n` validations
is the result of the whole validation. -/
theorem validated_error_of_alpha (x : XInput) (n : NInput) (a : AInput)
    (c : Option AInput) (e : PyErr) (hx : isOkB (getValidatedXValues x) = true)
    (hn : isOkB (getValidatedOrder n) = true)
    (h : getValidatedAlpha a = .error e) :
    getValidatedHermiteFunctionInput x n a c = .error e := by
  rcases hxv : getValidatedXValues x with e' | xv
  · simp [isOkB, hxv] at hx
  · rcases hnv : getValidatedOrder n with e' | nv
    · simp [isOkB, hnv] at hn
    · simp [getValidatedHermiteFunctionInput, hxv, hnv, h]

/-- Each public evaluator fails with an error exactly when the validation
step fails with that error: errors originate in validation only, and on a
validation failure no kernel computation takes place. -/
theorem runEvaluator_error_iff (ek : EvalKind) (x : XInput) (n : NInput)
    (a : AInput) (c : Option AInput) (e : PyErr) :
    runEvaluator ek x n a c = .error e ↔
      getValidatedHermiteFunctionInput x n a c = .error e := by
  rcases hv : getValidatedHermiteFunctionInput x n a c with e' | ⟨xv, nv, av, cv⟩ <;>
    cases ek <;>
    simp [runEvaluator, single_hermite_function, hermite_function_basis,
      slow_hermite_function_basis, hv]

/-- C1: for every call to a public evaluator (`single_hermite_function`,
`hermite_function_basis`, `slow_hermite_function_basis`): a coordinate
input that is not real-valued raises a `TypeError`; a negative order raises
a `ValueError`; a non-positive `alpha` raises a `ValueError`; a coordinate
array that is not exactly one-dimensional or is empty raises a
`ValueError`; and every error of a call is exactly an error of the
validation step, which runs before any recurrence computation. -/
theorem claim_C1_validation_fail_fast (ek : EvalKind) (x : XInput) (n : NInput)
    (a : AInput) (c : Option AInput) :
    (xIsRealLike x = false → runEvaluator ek x n a c = .error (.typeError .x)) ∧
    (xIsRealLike x = true → xBadShape x = true →
      runEvaluator ek x n a c = .error (.valueError .x)) ∧
    (isOkB (getValidatedXValues x) = true → nIsNegative n = true →
      runEvaluator ek x n a c = .error (.valueError .n)) ∧
    (isOkB (getValidatedXValues x) = true → isOkB (getValidatedOrder n) = true →
      alphaNonPos a = true → runEvaluator ek x n a c = .error (.valueError .alpha)) ∧
    (∀ e : PyErr, runEvaluator ek x n a c = .error e ↔
      getValidatedHermiteFunctionInput x n a c = .error e) := by
  refine ⟨?_, ?_, ?_, ?_, fun e => runEvaluator_error_iff ek x n a c e⟩
  · intro h
    exact (runEvaluator_error_iff ek x n a c _).mpr
      (validated_error_of_x x n a c _ (getValidatedXValues_typeError x h))
  · intro h1 h2
    exact (runEvaluator_error_iff ek x n a c _).mpr
      (validated_error_of_x x n a c _ (getValidatedXValues_shapeError x h1 h2))
  · intro hx hn
    exact (runEvaluator_error_iff ek x n a c _).mpr
      (validated_error_of_n x n a c _ hx (getValidatedOrder_valueError n hn))
  · intro hx hn ha
    exact (runEvaluator_error_iff ek x n a c _).mpr
      (validated_error_of_alpha x n a c _ hx hn (getValidatedAlpha_valueError a ha))

/-- C1 witness: each error class exercised at a concrete input through a
concrete public evaluator. -/
theorem claim_C1_witness :
    runEvaluator .single (.pyComplex 0 1) (.int 1) (.float 1) none =
      .error (.typeError .x) ∧
    runEvaluator (.basis 2) (.array (.realArr .f64 2 [1, 2])) (.int 1) (.float 1)
      none = .error (.valueError .x) ∧
    runEvaluator (.slow true) (.pyFloat 1) (.int (-1)) (.float 1) none =
      .error (.valueError .n) ∧
    runEvaluator .single (.pyFloat 1) (.int 0) (.float 0) none =
      .error (.valueError .alpha) :=
  ⟨(claim_C1_validation_fail_fast .single (.pyComplex 0 1) (.int 1) (.float 1)
      none).1 (by decide),
   (claim_C1_validation_fail_fast (.basis 2) (.array (.realArr .f64 2 [1, 2]))
      (.int 1) (.float 1) none).2.1 (by decide) (by decide),
   (claim_C1_validation_fail_fast (.slow true) (.pyFloat 1) (.int (-1)) (.float 1)
      none).2.2.1 (by decide) (by decide),
   (claim_C1_validation_fail_fast .single (.pyFloat 1) (.int 0) (.float 0)
      none).2.2.2.1 (by decide) (by decide) (by decide)⟩

/-- C2: for every input and every worker count, the full-basis evaluation
partitioned into per-worker blocks returns the same result as the purely
sequential evaluation with one worker, and the block-parallel evaluation is
exactly the row-by-row evaluation of the coordinate array in its original
order. -/
theorem claim_C2_workers_deterministic (x : XInput) (n : NInput) (a : AInput)
    (c : Option AInput) (w : ℕ) :
    runEvaluator (.basis w) x n a c = runEvaluator (.basis 1) x n a c ∧
    ∀ (xs : List ℝ) (m : ℕ) (alpha xCenter : ℝ),
      hermiteBasisPar xs m alpha xCenter w = xs.map (hermiteBasisRow m alpha xCenter) := by
  constructor
  · rcases hv : getValidatedHermiteFunctionInput x n a c with e | ⟨xv, nv, av, cv⟩ <;>
      simp [runEvaluator, hermite_function_basis, hv, hermiteBasisPar_eq_map]
  · intro xs m alpha xCenter
    exact hermiteBasisPar_eq_map xs m alpha xCenter w

/-- C3: `slow_hermite_function_basis` has the same contract as
`hermite_function_basis`: for every input and both values of the `jit`
flag it returns exactly the same result (same validation errors, same
basis matrix) as the primary implementation with one worker, the slow path
running the direct recurrence and the primary path the scaled kernel. -/
theorem claim_C3_slow_equals_fast (x : XInput) (n : NInput) (a : AInput)
    (c : Option AInput) (jit : Bool) :
    slow_hermite_function_basis x n a c jit = hermite_function_basis x n a c 1 := by
  rcases hv : getValidatedHermiteFunctionInput x n a c with e | ⟨xv, nv, av, cv⟩ <;>
    simp [slow_hermite_function_basis, hermite_function_basis, hv,
      hermiteBasisPar_eq_map]
  intro y hy
  exact (hermiteBasisRow_eq_slow _ _ _ _).symm

theorem evalSingleCore_shift (xs : List ℚ) (n : ℕ) (a c : ℚ) :
    evalSingleCore (xs.map (fun q => q + c)) n a c = evalSingleCore xs n a 0 := by
  unfold evalSingleCore
  rw [List.map_map]
  refine List.map_congr_left (fun q _ => ?_)
  have harg : (a : ℝ) * (((q + c : ℚ) : ℝ) - (c : ℝ)) =
      (a : ℝ) * ((q : ℝ) - ((0 : ℚ) : ℝ)) := by
    push_cast
    ring
  simp only [Function.comp_apply, harg]

/-- C5: centering invariance: shifting the coordinates by `c` and
evaluating with `x_center = c` gives exactly the values obtained at the
unshifted coordinates with `x_center = 0` — the transform applied is
always `x -> alpha * (x - x_center)`.  Stated for the post-validation
single-order path and for the public `single_hermite_function` on
coordinate lists, for every order and dilation input. -/
theorem claim_C5_centering_invariance (xs : List ℚ) (n : ℕ) (a c : ℚ) :
    evalSingleCore (xs.map (fun q => q + c)) n a c = evalSingleCore xs n a 0 ∧
    ∀ (nIn : NInput) (aIn : AInput),
      single_hermite_function (.realList (xs.map (fun q => q + c))) nIn aIn
          (some (.float c)) =
        single_hermite_function (.realList xs) nIn aIn (some (.float 0)) := by
  refine ⟨evalSingleCore_shift xs n a c, ?_⟩
  intro nIn aIn
  cases xs with
  | nil => rfl
  | cons y ys =>
    unfold single_hermite_function getValidatedHermiteFunctionInput
    have hx1 : getValidatedXValues (.realList ((y :: ys).map (fun q => q + c))) =
        .ok ⟨(y :: ys).map (fun q => q + c), false⟩ := rfl
    have hx2 : getValidatedXValues (.realList (y :: ys)) = .ok ⟨y :: ys, false⟩ := rfl
    rw [hx1, hx2]
    rcases getValidatedOrder nIn with e | nv
    · rfl
    · rcases getValidatedAlpha aIn with e | av
      · rfl
      · exact congrArg Except.ok (evalSingleCore_shift (y :: ys) nv.toNat av c)

/-- C4: the evaluators never write to caller-supplied coordinate storage:
every array cell of the store is unchanged by a full-basis call, and the
returned matrix is the pure row-by-row evaluation of the caller's array
contents — the centering/dilation transform lives only in a freshly
allocated internal copy. -/
theorem claim_C4_no_mutation (st : Store) (r : ℕ) (n : ℕ) (alpha xCenter : ℚ) :
    (∀ i, i < st.length →
      storeGet (hermiteBasisStateful st r n alpha xCenter).1 i = storeGet st i) ∧
    (hermiteBasisStateful st r n alpha xCenter).2 =
      (storeGet st r).map
        (fun q : ℚ => hermiteBasisRow n (alpha : ℝ) (xCenter : ℝ) (q : ℝ)) := by
  constructor
  · intro i hi
    show (st ++ [(storeGet st r).map (fun q : ℚ => alpha * (q - xCenter))]).getD i []
      = st.getD i []
    exact List.getD_append _ _ _ _ hi
  · have hGet : storeGet
        (st ++ [(storeGet st r).map (fun q : ℚ => alpha * (q - xCenter))]) st.length
        = (storeGet st r).map (fun q : ℚ => alpha * (q - xCenter)) := by
      show (st ++ [(storeGet st r).map (fun q : ℚ => alpha * (q - xCenter))]).getD
        st.length [] = _
      rw [List.getD_append_right _ _ _ _ (le_refl st.length), Nat.sub_self]
      rfl
    show ((storeGet (st ++ [(storeGet st r).map (fun q : ℚ => alpha * (q - xCenter))])
        st.length).map _) = _
    rw [hGet, List.map_map]
    refine List.map_congr_left (fun q _ => ?_)
    have hcast : ((alpha * (q - xCenter) : ℚ) : ℝ) =
        (alpha : ℝ) * ((q : ℝ) - (xCenter : ℝ)) := by
      push_cast
      ring
    show (List.range (n + 1)).map
        (fun k => Real.sqrt (alpha : ℝ) * scaledEmit ((alpha * (q - xCenter) : ℚ) : ℝ) k)
      = hermiteBasisRow n (alpha : ℝ) (xCenter : ℝ) (q : ℝ)
    rw [hcast]
    rfl

/-- C4 witness: a concrete store with one caller array is untouched by the
call. -/
theorem claim_C4_no_mutation_witness :
    storeGet (hermiteBasisStateful [[1]] 0 1 1 0).1 0 = storeGet [[1]] 0 :=
  (claim_C4_no_mutation [[1]] 0 1 1 0).1 0 (by decide)

/-- C8: the scenario `single_hermite_function(x=1.0, n=1, alpha=1.0)`
returns the single value `sqrt(2) * pi^(-1/4) * exp(-1/2)`, consistent with
the base cases `psi_0` and `psi_1(x) = sqrt(2) x psi_0(x)`. -/
theorem claim_C8_single_n1_scenario :
    single_hermite_function (.pyFloat 1) (.int 1) (.float 1) none =
      .ok [Real.sqrt 2 * Real.pi ^ (-(1 / 4 : ℝ)) * Real.exp (-(1 / 2 : ℝ))] := by
  have hv : getValidatedHermiteFunctionInput (.pyFloat 1) (.int 1) (.float 1) none =
      .ok (⟨[1], false⟩, 1, 1, 0) := rfl
  unfold single_hermite_function
  rw [hv]
  show Except.ok (evalSingleCore [1] (1 : ℤ).toNat 1 0) = _
  congr 1
  unfold evalSingleCore
  simp only [List.map_cons, List.map_nil, Rat.cast_one, Rat.cast_zero, sub_zero,
    one_mul, Real.sqrt_one]
  rw [scaledEmit_eq_psi]
  show [Real.sqrt 2 * 1 * psiZero 1] = _
  unfold psiZero
  norm_num
  ring

/-- C9: `x_center = None` is accepted, validates to the float `0.0`, and
every public evaluator behaves under it exactly as under `x_center = 0.0`;
real scalars are the only other accepted centers and any non-real center
raises a `TypeError`. -/
theorem claim_C9_center_none (ek : EvalKind) (x : XInput) (n : NInput) (a : AInput) :
    getValidatedOffsetAlongAxis none = .ok 0 ∧
    runEvaluator ek x n a none = runEvaluator ek x n a (some (.float 0)) ∧
    (∀ cin : AInput, centerIsReal cin = false →
      getValidatedOffsetAlongAxis (some cin) = .error (.typeError .center)) ∧
    (∀ cin : AInput, isOkB (getValidatedOffsetAlongAxis (some cin)) = true ↔
      centerIsReal cin = true) := by
  refine ⟨rfl, ?_, ?_, ?_⟩
  · cases ek <;> rfl
  · intro cin h
    cases cin <;> simp_all [centerIsReal, getValidatedOffsetAlongAxis]
  · intro cin
    cases cin <;> simp [centerIsReal, getValidatedOffsetAlongAxis, isOkB]

/-- C9 witness: a complex center is rejected with a `TypeError` and a real
one accepted, at concrete inputs. -/
theorem claim_C9_center_none_witness :
    getValidatedOffsetAlongAxis (some (.pyComplex 0 1)) = .error (.typeError .center) ∧
    (isOkB (getValidatedOffsetAlongAxis (some (.float 5))) = true ↔
      centerIsReal (.float 5) = true) :=
  ⟨(claim_C9_center_none .single (.pyFloat 1) (.int 1) (.float 1)).2.2.1 _ (by decide),
   (claim_C9_center_none .single (.pyFloat 1) (.int 1) (.float 1)).2.2.2 _⟩

/-- On a successful `x` validation, the returned array is data-linked to
the caller's input exactly when `np.atleast_1d` shared memory and no dtype
conversion happened. -/
theorem getValidatedXValues_linked (x : XInput) (xv : ValidatedX)
    (h : getValidatedXValues x = .ok xv) :
    xv.linked = ((atleast1dArr x).2 && arrIsF64 (atleast1dArr x).1) := by
  simp only [getValidatedXValues] at h
  split_ifs at h <;>
    first
      | exact Except.noConfusion h
      | (injection h with h5
         subst h5
         simp_all)

/-- A successful `x` validation forces the `atleast_1d` result to be
one-dimensional. -/
theorem getValidatedXValues_ok_ndim (x : XInput) (xv : ValidatedX)
    (h : getValidatedXValues x = .ok xv) :
    arrNdim (atleast1dArr x).1 = 1 := by
  simp only [getValidatedXValues] at h
  split_ifs at h <;>
    first
      | exact Except.noConfusion h
      | simp_all [arrNdim_astype]

/-- C10 counterexample: the claim that the validated array shares memory
with the caller's input exactly when the input is a one-dimensional
`float64` array is false: a 0-dimensional `float64` array (here holding
the value 2) is accepted and `np.atleast_1d` reshapes it to a view that
shares its memory, yet it is not one-dimensional. -/
theorem claim_C10_counterexample :
    ¬ (∀ (x : XInput) (xv : ValidatedX), getValidatedXValues x = .ok xv →
        (xv.linked = true ↔ isOneDimF64Arr x = true)) := by
  intro hclaim
  have h := hclaim (.array (.realArr .f64 0 [2])) ⟨[2], true⟩ rfl
  simp [isOneDimF64Arr] at h

/-- C10 (amended): the validated coordinate array shares memory with the
caller's input exactly when that input is a `float64` NumPy array of
dimension at most one; every other accepted input yields a fresh copy. -/
theorem claim_C10_linked_iff_lowdim_f64 (x : XInput) (xv : ValidatedX)
    (h : getValidatedXValues x = .ok xv) :
    (xv.linked = true ↔ isLowDimF64Arr x = true) := by
  have hl := getValidatedXValues_linked x xv h
  have hnd := getValidatedXValues_ok_ndim x xv h
  cases x with
  | pyFloat v => simp_all [atleast1dArr, arrIsF64, isLowDimF64Arr]
  | pyInt v => simp_all [atleast1dArr, arrIsF64, isLowDimF64Arr]
  | pyComplex re im => simp_all [atleast1dArr, arrIsF64, isLowDimF64Arr]
  | realList vs => simp_all [atleast1dArr, arrIsF64, isLowDimF64Arr]
  | cplxList vs => simp_all [atleast1dArr, arrIsF64, isLowDimF64Arr]
  | array a =>
    cases a with
    | realArr dty nd vs =>
      cases dty <;> simp_all [atleast1dArr, arrIsF64, isLowDimF64Arr, arrNdim]
    | cplxArr nd vs => simp_all [atleast1dArr, arrIsF64, isLowDimF64Arr]

/-- C10 witness: a genuine one-dimensional `float64` array is returned
data-linked. -/
theorem claim_C10_linked_witness :
    getValidatedXValues (.array (.realArr .f64 1 [3])) = .ok ⟨[3], true⟩ ∧
    ((⟨[3], true⟩ : ValidatedX).linked = true ↔
      isLowDimF64Arr (.array (.realArr .f64 1 [3])) = true) :=
  ⟨rfl, claim_C10_linked_iff_lowdim_f64 _ _ rfl⟩

end RobustHermiteFT
